import Mathlib

/-!
# gandyn: the versioned zone-update transaction

A shallow embedding of `main.go`: `deleteVersion`, `getRecord`, `updateRecord`
and the body of the poll loop of `main`.

The remote zone API is an arbitrary deterministic transition system over a
state type `σ`. Every function of the program threads that state, and returns
the list of remote calls it issued (each with the response it got), so that
ordering properties can be stated on the list. Go's `(value, error)` returns
are pairs whose second component is `none` for a `nil` error. `int64` ids are
`Int` (no arithmetic is performed on them). Log output is not modelled.
-/

namespace Gandyn

/-- Modelled from the spec: the record type `record.RecordInfo` of the API
client library, `{id, name, type, value, ttl}`. -/
structure RecordInfo where
  Id : String
  Name : String
  Ttl : Int
  Type_ : String
  Value : String
  deriving DecidableEq, Repr

/-- Modelled from the spec: the argument type `record.RecordAdd` of the API
client library, with the six positional fields `updateRecord` fills in. -/
structure RecordAdd where
  Zone : Int
  Version : Int
  Name : String
  Type_ : String
  Value : String
  Ttl : Int
  deriving DecidableEq, Repr

/-- Modelled from the spec: the operations of the API client library that the
program calls, each a synchronous call that can fail and may change the remote
state. A returned value that the program discards (`_`) is left out.
 * `versionNew`     is `version.New(client).New(zoneId, versionId)`
 * `versionDelete`  is `version.New(client).Delete(zoneId, versionId)`
 * `versionSet`     is `version.New(client).Set(zoneId, versionId)`
 * `recordList`     is `record.New(client).List(zoneId, versionId)`
 * `recordDelete`   is `record.New(client).Delete(zoneId, versionId, id)`
 * `recordAdd`      is `record.New(client).Add(recordAdd)` -/
structure ZoneAPI (σ : Type) where
  versionNew : Int → Int → σ → (Int × Option String) × σ
  versionDelete : Int → Int → σ → Option String × σ
  versionSet : Int → Int → σ → Option String × σ
  recordList : Int → Int → σ → (List RecordInfo × Option String) × σ
  recordDelete : Int → Int → String → σ → (Bool × Option String) × σ
  recordAdd : RecordAdd → σ → Option String × σ

/-- One remote call together with the response the program received. -/
inductive Event where
  | versionNew (zoneId versionId : Int) (res : Int) (err : Option String)
  | recordList (zoneId versionId : Int) (res : List RecordInfo) (err : Option String)
  | recordDelete (zoneId versionId : Int) (recordId : String) (ok : Bool) (err : Option String)
  | recordAdd (args : RecordAdd) (err : Option String)
  | versionSet (zoneId versionId : Int) (err : Option String)
  | versionDelete (zoneId versionId : Int) (err : Option String)
  deriving DecidableEq, Repr

/-- Result of running a piece of the program: the returned value, the remote
calls issued in order, and the remote state afterwards. -/
structure Out (σ α : Type) where
  ret : α
  calls : List Event
  st : σ

/-- Source `deleteVersion`: one `Delete` call; an error is only logged. -/
def deleteVersion {σ : Type} (api : ZoneAPI σ) (zoneId versionId : Int) (s : σ) :
    Out σ Unit :=
  let d := api.versionDelete zoneId versionId s
  ⟨(), [Event.versionDelete zoneId versionId d.1], d.2⟩

/-- The `for _, r := range records` loop of `getRecord`: the first record
whose name is `recordName`. -/
def findRecord (recordName : String) : List RecordInfo → Option RecordInfo
  | [] => none
  | r :: rest => if r.Name = recordName then some r else findRecord recordName rest

/-- Source `getRecord`: list the records of the version, return the first one
with the given name. -/
def getRecord {σ : Type} (api : ZoneAPI σ) (zoneId versionId : Int) (recordName : String)
    (s : σ) : Out σ (Except String RecordInfo) :=
  let l := api.recordList zoneId versionId s
  let ev := Event.recordList zoneId versionId l.1.1 l.1.2
  match l.1.2 with
  | some err => ⟨Except.error err, [ev], l.2⟩
  | none =>
    match findRecord recordName l.1.1 with
    | some r => ⟨Except.ok r, [ev], l.2⟩
    | none => ⟨Except.error "record not found", [ev], l.2⟩

/-- The error value `updateFailed` of `updateRecord`. -/
def updateFailed : String := "update failed"

/-- Source `updateRecord`: clone the version, locate the record by name in the
clone, delete it, add the updated record, activate the clone, delete the old
version; delete the clone when a step after the clone fails. -/
def updateRecord {σ : Type} (api : ZoneAPI σ) (zoneId versionId : Int) (r : RecordInfo)
    (s : σ) : Out σ (Int × Option String) :=
  -- Copy current version as a new one
  let c := api.versionNew zoneId versionId s
  let e1 := Event.versionNew zoneId versionId c.1.1 c.1.2
  match c.1.2 with
  | some _ => ⟨(0, some updateFailed), [e1], c.2⟩
  | none =>
    let newVersion := c.1.1
    -- Get the previous record in the new version
    let g := getRecord api zoneId newVersion r.Name c.2
    match g.ret with
    | Except.error _ =>
      let d := deleteVersion api zoneId newVersion g.st
      ⟨(0, some updateFailed), e1 :: (g.calls ++ d.calls), d.st⟩
    | Except.ok oldRecord =>
      -- Delete previous record in this new version
      let x := api.recordDelete zoneId newVersion oldRecord.Id g.st
      let e3 := Event.recordDelete zoneId newVersion oldRecord.Id x.1.1 x.1.2
      if x.1.1 = false then
        let d := deleteVersion api zoneId newVersion x.2
        ⟨(0, some updateFailed), e1 :: (g.calls ++ e3 :: d.calls), d.st⟩
      else
        -- Add updated record
        let recordAdd : RecordAdd := ⟨zoneId, newVersion, r.Name, r.Type_, r.Value, r.Ttl⟩
        let a := api.recordAdd recordAdd x.2
        let e4 := Event.recordAdd recordAdd a.1
        match a.1 with
        | some _ =>
          let d := deleteVersion api zoneId newVersion a.2
          ⟨(0, some updateFailed), e1 :: (g.calls ++ e3 :: e4 :: d.calls), d.st⟩
        | none =>
          -- Activate new version
          let v := api.versionSet zoneId newVersion a.2
          let e5 := Event.versionSet zoneId newVersion v.1
          match v.1 with
          | some _ =>
            let d := deleteVersion api zoneId newVersion v.2
            ⟨(0, some updateFailed), e1 :: (g.calls ++ e3 :: e4 :: e5 :: d.calls), d.st⟩
          | none =>
            -- Delete old version
            let d := deleteVersion api zoneId versionId v.2
            ⟨(newVersion, none), e1 :: (g.calls ++ e3 :: e4 :: e5 :: d.calls), d.st⟩

/-- The variables the poll loop of `main` carries from one iteration to the
next. -/
structure LoopState where
  activeVersion : Int
  registeredIp : String
  recordInfo : RecordInfo
  deriving DecidableEq, Repr

/-- One iteration of the `for` loop of `main`. `ip` is what `getPublicIP4`
returned in this iteration (address, error); the sleep is not modelled. -/
def pollIteration {σ : Type} (api : ZoneAPI σ) (zoneId : Int) (ip : String × Option String)
    (l : LoopState) (s : σ) : Out σ LoopState :=
  match ip.2 with
  | some _ => ⟨l, [], s⟩
  | none =>
    let currentIp := ip.1
    if currentIp ≠ l.registeredIp then
      -- Update Gandi record when IP changes
      let recordInfo := { l.recordInfo with Value := currentIp }
      let u := updateRecord api zoneId l.activeVersion recordInfo s
      match u.ret.2 with
      | none => ⟨⟨u.ret.1, currentIp, recordInfo⟩, u.calls, u.st⟩
      | some _ => ⟨{ l with recordInfo := recordInfo }, u.calls, u.st⟩
    else ⟨l, [], s⟩

/-- The poll loop run over the successive results of `getPublicIP4`. -/
def pollLoop {σ : Type} (api : ZoneAPI σ) (zoneId : Int) :
    List (String × Option String) → LoopState → σ → Out σ LoopState
  | [], l, s => ⟨l, [], s⟩
  | ip :: ips, l, s =>
    let o := pollIteration api zoneId ip l s
    let o2 := pollLoop api zoneId ips o.ret o.st
    ⟨o2.ret, o.calls ++ o2.calls, o2.st⟩

/-! ## Reading a call list -/

/-- The five steps of the transaction. -/
inductive Step where
  | clone | locate | delete | add | activate
  deriving DecidableEq, Repr, Fintype

/-- The step a remote call belongs to; deleting a version is cleanup, not a
step. -/
def Event.step : Event → Option Step
  | Event.versionNew _ _ _ _ => some Step.clone
  | Event.recordList _ _ _ _ => some Step.locate
  | Event.recordDelete _ _ _ _ _ => some Step.delete
  | Event.recordAdd _ _ => some Step.add
  | Event.versionSet _ _ _ => some Step.activate
  | Event.versionDelete _ _ _ => none

/-- A `DeleteVersion` call. -/
def Event.isVersionDelete : Event → Bool
  | Event.versionDelete _ _ _ => true
  | _ => false

/-- A call that changes the records of a version: `DeleteRecord`, `AddRecord`. -/
def Event.isRecordMutation : Event → Bool
  | Event.recordDelete _ _ _ _ _ => true
  | Event.recordAdd _ _ => true
  | _ => false

/-- A mutating call of the zone API: `CloneVersion`, `DeleteRecord`,
`AddRecord`, `ActivateVersion`, `DeleteVersion`. -/
def Event.isMutating : Event → Bool
  | Event.recordList _ _ _ _ => false
  | _ => true

/-- The version a call is issued against. -/
def Event.version : Event → Int
  | Event.versionNew _ v _ _ => v
  | Event.recordList _ v _ _ => v
  | Event.recordDelete _ v _ _ _ => v
  | Event.recordAdd a _ => a.Version
  | Event.versionSet _ v _ => v
  | Event.versionDelete _ v _ => v

/-- The six call sequences one run of `updateRecord zoneId V1 r` can issue,
each with the value returned. -/
inductive Shape (zoneId V1 : Int) (r : RecordInfo) : Int × Option String → List Event → Prop
  | cloneFailed (n : Int) (e : String) :
      Shape zoneId V1 r (0, some updateFailed) [Event.versionNew zoneId V1 n (some e)]
  | locateFailed (V2 : Int) (L : List RecordInfo) (le de : Option String)
      (h : le ≠ none ∨ findRecord r.Name L = none) :
      Shape zoneId V1 r (0, some updateFailed)
        [Event.versionNew zoneId V1 V2 none, Event.recordList zoneId V2 L le,
         Event.versionDelete zoneId V2 de]
  | deleteFailed (V2 : Int) (L : List RecordInfo) (old : RecordInfo) (xe de : Option String)
      (h : findRecord r.Name L = some old) :
      Shape zoneId V1 r (0, some updateFailed)
        [Event.versionNew zoneId V1 V2 none, Event.recordList zoneId V2 L none,
         Event.recordDelete zoneId V2 old.Id false xe, Event.versionDelete zoneId V2 de]
  | addFailed (V2 : Int) (L : List RecordInfo) (old : RecordInfo) (xe de : Option String)
      (ae : String) (h : findRecord r.Name L = some old) :
      Shape zoneId V1 r (0, some updateFailed)
        [Event.versionNew zoneId V1 V2 none, Event.recordList zoneId V2 L none,
         Event.recordDelete zoneId V2 old.Id true xe,
         Event.recordAdd ⟨zoneId, V2, r.Name, r.Type_, r.Value, r.Ttl⟩ (some ae),
         Event.versionDelete zoneId V2 de]
  | activateFailed (V2 : Int) (L : List RecordInfo) (old : RecordInfo) (xe de : Option String)
      (se : String) (h : findRecord r.Name L = some old) :
      Shape zoneId V1 r (0, some updateFailed)
        [Event.versionNew zoneId V1 V2 none, Event.recordList zoneId V2 L none,
         Event.recordDelete zoneId V2 old.Id true xe,
         Event.recordAdd ⟨zoneId, V2, r.Name, r.Type_, r.Value, r.Ttl⟩ none,
         Event.versionSet zoneId V2 (some se), Event.versionDelete zoneId V2 de]
  | done (V2 : Int) (L : List RecordInfo) (old : RecordInfo) (xe de : Option String)
      (h : findRecord r.Name L = some old) :
      Shape zoneId V1 r (V2, none)
        [Event.versionNew zoneId V1 V2 none, Event.recordList zoneId V2 L none,
         Event.recordDelete zoneId V2 old.Id true xe,
         Event.recordAdd ⟨zoneId, V2, r.Name, r.Type_, r.Value, r.Ttl⟩ none,
         Event.versionSet zoneId V2 none, Event.versionDelete zoneId V1 de]

/-! ## The transaction of spec §4.2, read off the answers of the zone API

These definitions follow the state machine of the spec, not the code: they say
which answers of the zone API bring the transaction to which state, and which
answer makes the next step fail. The theorems compare `updateRecord` with
them. -/

/-- Spec §4.1: `old` is the first record of `L`, in list order, whose name is
`name`. -/
def FirstNamed (name : String) (L : List RecordInfo) (old : RecordInfo) : Prop :=
  ∃ pre post, L = pre ++ old :: post ∧ old.Name = name ∧ ∀ x ∈ pre, x.Name ≠ name

/-- Spec §4.2: the states after each successful step, with what the zone API
answered on the way: the clone id, the listing of the clone, the record found
in it, the error value that came with a successful record delete. -/
inductive Stage where
  | versionCreated (newV : Int)
  | oldRecordFound (newV : Int) (L : List RecordInfo) (old : RecordInfo)
  | recordDeleted (newV : Int) (L : List RecordInfo) (old : RecordInfo) (xe : Option String)
  | recordAdded (newV : Int) (L : List RecordInfo) (old : RecordInfo) (xe : Option String)
  | versionActive (newV : Int) (L : List RecordInfo) (old : RecordInfo) (xe : Option String)

/-- The id of the clone. -/
def Stage.newV : Stage → Int
  | Stage.versionCreated n => n
  | Stage.oldRecordFound n _ _ => n
  | Stage.recordDeleted n _ _ _ => n
  | Stage.recordAdded n _ _ _ => n
  | Stage.versionActive n _ _ _ => n

/-- Spec §8, scenario B: the calls issued, with their answers, on the way to a
state of the transaction `updateRecord zoneId V1 r`. -/
def Stage.calls (zoneId V1 : Int) (r : RecordInfo) : Stage → List Event
  | Stage.versionCreated n => [Event.versionNew zoneId V1 n none]
  | Stage.oldRecordFound n L _ =>
      [Event.versionNew zoneId V1 n none, Event.recordList zoneId n L none]
  | Stage.recordDeleted n L old xe =>
      [Event.versionNew zoneId V1 n none, Event.recordList zoneId n L none,
       Event.recordDelete zoneId n old.Id true xe]
  | Stage.recordAdded n L old xe =>
      [Event.versionNew zoneId V1 n none, Event.recordList zoneId n L none,
       Event.recordDelete zoneId n old.Id true xe,
       Event.recordAdd ⟨zoneId, n, r.Name, r.Type_, r.Value, r.Ttl⟩ none]
  | Stage.versionActive n L old xe =>
      [Event.versionNew zoneId V1 n none, Event.recordList zoneId n L none,
       Event.recordDelete zoneId n old.Id true xe,
       Event.recordAdd ⟨zoneId, n, r.Name, r.Type_, r.Value, r.Ttl⟩ none,
       Event.versionSet zoneId n none]

/-- Spec §4.2: `Reached api zoneId V1 r s stage sk` says that, started in the
remote state `s`, the zone API answers the steps of the transaction with
success up to `stage`, and that the remote state is then `sk`. Clone, add and
activate succeed when the call returns no error, the lookup when the listing
returns no error and holds a record named `r.Name`, the record delete when it
reports `true`. -/
inductive Reached {σ : Type} (api : ZoneAPI σ) (zoneId V1 : Int) (r : RecordInfo) (s : σ) :
    Stage → σ → Prop
  | clone {n : Int} {s1 : σ} (h : api.versionNew zoneId V1 s = ((n, none), s1)) :
      Reached api zoneId V1 r s (Stage.versionCreated n) s1
  | locate {n : Int} {L : List RecordInfo} {old : RecordInfo} {s1 s2 : σ}
      (before : Reached api zoneId V1 r s (Stage.versionCreated n) s1)
      (h : api.recordList zoneId n s1 = ((L, none), s2)) (hfirst : FirstNamed r.Name L old) :
      Reached api zoneId V1 r s (Stage.oldRecordFound n L old) s2
  | delete {n : Int} {L : List RecordInfo} {old : RecordInfo} {xe : Option String} {s2 s3 : σ}
      (before : Reached api zoneId V1 r s (Stage.oldRecordFound n L old) s2)
      (h : api.recordDelete zoneId n old.Id s2 = ((true, xe), s3)) :
      Reached api zoneId V1 r s (Stage.recordDeleted n L old xe) s3
  | add {n : Int} {L : List RecordInfo} {old : RecordInfo} {xe : Option String} {s3 s4 : σ}
      (before : Reached api zoneId V1 r s (Stage.recordDeleted n L old xe) s3)
      (h : api.recordAdd ⟨zoneId, n, r.Name, r.Type_, r.Value, r.Ttl⟩ s3 = (none, s4)) :
      Reached api zoneId V1 r s (Stage.recordAdded n L old xe) s4
  | activate {n : Int} {L : List RecordInfo} {old : RecordInfo} {xe : Option String}
      {s4 s5 : σ}
      (before : Reached api zoneId V1 r s (Stage.recordAdded n L old xe) s4)
      (h : api.versionSet zoneId n s4 = (none, s5)) :
      Reached api zoneId V1 r s (Stage.versionActive n L old xe) s5

/-- Spec §4.2: `Fails api zoneId r stage sk ev sf` says that in the state `stage`
of the transaction, with the remote state `sk`, the zone API answers the next
step with a failure; `ev` is that call with its answer and `sf` the remote
state after it. The lookup fails when the listing returns an error or holds no
record named `r.Name`, the record delete when it reports `false`, add and
activate when the call returns an error. -/
inductive Fails {σ : Type} (api : ZoneAPI σ) (zoneId : Int) (r : RecordInfo) :
    Stage → σ → Event → σ → Prop
  | listing {n : Int} {L : List RecordInfo} {e : String} {sk sf : σ}
      (h : api.recordList zoneId n sk = ((L, some e), sf)) :
      Fails api zoneId r (Stage.versionCreated n) sk (Event.recordList zoneId n L (some e)) sf
  | notFound {n : Int} {L : List RecordInfo} {sk sf : σ}
      (h : api.recordList zoneId n sk = ((L, none), sf)) (hno : ∀ x ∈ L, x.Name ≠ r.Name) :
      Fails api zoneId r (Stage.versionCreated n) sk (Event.recordList zoneId n L none) sf
  | delete {n : Int} {L : List RecordInfo} {old : RecordInfo} {xe : Option String} {sk sf : σ}
      (h : api.recordDelete zoneId n old.Id sk = ((false, xe), sf)) :
      Fails api zoneId r (Stage.oldRecordFound n L old) sk
        (Event.recordDelete zoneId n old.Id false xe) sf
  | add {n : Int} {L : List RecordInfo} {old : RecordInfo} {xe : Option String} {e : String}
      {sk sf : σ}
      (h : api.recordAdd ⟨zoneId, n, r.Name, r.Type_, r.Value, r.Ttl⟩ sk = (some e, sf)) :
      Fails api zoneId r (Stage.recordDeleted n L old xe) sk
        (Event.recordAdd ⟨zoneId, n, r.Name, r.Type_, r.Value, r.Ttl⟩ (some e)) sf
  | activate {n : Int} {L : List RecordInfo} {old : RecordInfo} {xe : Option String}
      {e : String} {sk sf : σ}
      (h : api.versionSet zoneId n sk = (some e, sf)) :
      Fails api zoneId r (Stage.recordAdded n L old xe) sk
        (Event.versionSet zoneId n (some e)) sf

/-- Modelled from the spec: the contract of the clone operation of the zone API,
which is not under `src/`: "a freshly cloned version is a distinct version id"
(§4.1), so a clone call that returns no error returns an id different from the
id of the version it cloned. -/
def CloneContract {σ : Type} (api : ZoneAPI σ) : Prop :=
  ∀ zoneId versionId s, (api.versionNew zoneId versionId s).1.2 = none →
    (api.versionNew zoneId versionId s).1.1 ≠ versionId

/-! ## A zone API with fixed responses, for concrete runs -/

/-- The response each operation gives, whatever its arguments. -/
structure Script where
  cloneErr : Option String
  listing : List RecordInfo
  listErr : Option String
  delOk : Bool
  delErr : Option String
  addErr : Option String
  setErr : Option String
  verDelErr : Option String

/-- The zone API that answers by the script; the clone of version `v` gets the
id `v + 1`, and the state counts the calls. -/
def scripted (k : Script) : ZoneAPI Nat where
  versionNew := fun _ v n => ((v + 1, k.cloneErr), n + 1)
  versionDelete := fun _ _ n => (k.verDelErr, n + 1)
  versionSet := fun _ _ n => (k.setErr, n + 1)
  recordList := fun _ _ n => ((k.listing, k.listErr), n + 1)
  recordDelete := fun _ _ _ n => ((k.delOk, k.delErr), n + 1)
  recordAdd := fun _ n => (k.addErr, n + 1)

/-- The record `home` of the active version, with the newly observed address. -/
def home : RecordInfo := ⟨"3", "home", 300, "A", "5.6.7.8"⟩

/-- A script in which every call succeeds; the clone lists `home` under a new
record id. -/
def allOk : Script :=
  { cloneErr := none,
    listing := [⟨"8", "mail", 300, "A", "9.9.9.9"⟩, ⟨"9", "home", 300, "A", "1.2.3.4"⟩],
    listErr := none, delOk := true, delErr := none, addErr := none, setErr := none,
    verDelErr := none }

/-- A script in which every call succeeds and the clone lists two records
named `home`. -/
def twoHomes : Script :=
  { allOk with
    listing := [⟨"8", "home", 300, "A", "1.2.3.4"⟩, ⟨"9", "home", 300, "A", "4.3.2.1"⟩] }

/-- The record `www` as read from the old version, with a new value. -/
def www : RecordInfo := ⟨"1", "www", 300, "A", "5.6.7.8"⟩

/-- A script in which every call succeeds and the clone lists `mail` and `www`
under ids that differ from those of the old version. -/
def wwwMail : Script :=
  { allOk with
    listing := [⟨"11", "mail", 300, "A", "9.9.9.9"⟩, ⟨"12", "www", 300, "A", "1.2.3.4"⟩] }

/-- A script in which every call succeeds and the clone lists only `mail`. -/
def onlyMail : Script :=
  { allOk with listing := [⟨"8", "mail", 300, "A", "9.9.9.9"⟩] }

/-! ## Lemmas -/

theorem findRecord_eq_none {name : String} {L : List RecordInfo} :
    findRecord name L = none ↔ ∀ x ∈ L, x.Name ≠ name := by
  induction L with
  | nil => simp [findRecord]
  | cons a t ih =>
    by_cases h : a.Name = name <;> simp [findRecord, h, ih]

theorem findRecord_eq_some {name : String} {L : List RecordInfo} {rec : RecordInfo} :
    findRecord name L = some rec ↔
      ∃ pre post, L = pre ++ rec :: post ∧ rec.Name = name ∧ ∀ x ∈ pre, x.Name ≠ name := by
  induction L with
  | nil => simp [findRecord]
  | cons a t ih =>
    by_cases h : a.Name = name
    · simp only [findRecord, h, if_true, Option.some.injEq]
      constructor
      · rintro rfl
        exact ⟨[], t, rfl, h, by simp⟩
      · rintro ⟨pre, post, hL, hn, hpre⟩
        cases pre with
        | nil => simp at hL; exact hL.1
        | cons b pre' =>
          simp at hL
          exact absurd (hL.1 ▸ h) (hpre b (by simp))
    · simp only [findRecord, h, if_false, ih]
      constructor
      · rintro ⟨pre, post, hL, hn, hpre⟩
        refine ⟨a :: pre, post, by simp [hL], hn, ?_⟩
        intro x hx
        rcases List.mem_cons.1 hx with rfl | hx
        · exact h
        · exact hpre x hx
      · rintro ⟨pre, post, hL, hn, hpre⟩
        cases pre with
        | nil => simp at hL; exact absurd (hL.1 ▸ hn) h
        | cons b pre' =>
          simp at hL
          exact ⟨pre', post, hL.2, hn, fun x hx => hpre x (by simp [hx])⟩

theorem getRecord_calls {σ : Type} (api : ZoneAPI σ) (zoneId versionId : Int)
    (name : String) (s : σ) :
    (getRecord api zoneId versionId name s).calls =
      [Event.recordList zoneId versionId (api.recordList zoneId versionId s).1.1
        (api.recordList zoneId versionId s).1.2] := by
  unfold getRecord
  simp only []
  split
  · rfl
  · split <;> rfl

theorem getRecord_st {σ : Type} (api : ZoneAPI σ) (zoneId versionId : Int)
    (name : String) (s : σ) :
    (getRecord api zoneId versionId name s).st = (api.recordList zoneId versionId s).2 := by
  unfold getRecord
  simp only []
  split
  · rfl
  · split <;> rfl

theorem getRecord_ret {σ : Type} (api : ZoneAPI σ) (zoneId versionId : Int)
    (name : String) (s : σ) :
    (getRecord api zoneId versionId name s).ret =
      match (api.recordList zoneId versionId s).1.2 with
      | some err => Except.error err
      | none =>
        match findRecord name (api.recordList zoneId versionId s).1.1 with
        | some r => Except.ok r
        | none => Except.error "record not found" := by
  unfold getRecord
  simp only []
  split
  · rfl
  · split <;> rfl

theorem getRecord_ok {σ : Type} {api : ZoneAPI σ} {zoneId versionId : Int}
    {name : String} {s : σ} {rec : RecordInfo}
    (h : (getRecord api zoneId versionId name s).ret = Except.ok rec) :
    (api.recordList zoneId versionId s).1.2 = none ∧
      findRecord name (api.recordList zoneId versionId s).1.1 = some rec := by
  rw [getRecord_ret] at h
  split at h
  · cases h
  · next hn =>
    refine ⟨hn, ?_⟩
    split at h
    · next hf => cases h; exact hf
    · cases h

theorem getRecord_error {σ : Type} {api : ZoneAPI σ} {zoneId versionId : Int}
    {name : String} {s : σ} {e : String}
    (h : (getRecord api zoneId versionId name s).ret = Except.error e) :
    (api.recordList zoneId versionId s).1.2 ≠ none ∨
      findRecord name (api.recordList zoneId versionId s).1.1 = none := by
  rw [getRecord_ret] at h
  split at h
  · next hn => left; simp [hn]
  · split at h
    · cases h
    · next hf => right; exact hf

/-- The call list and returned value of every run of `updateRecord` have one of
the six shapes. -/
theorem updateRecord_shape {σ : Type} (api : ZoneAPI σ) (zoneId V1 : Int) (r : RecordInfo)
    (s : σ) :
    Shape zoneId V1 r (updateRecord api zoneId V1 r s).ret
      (updateRecord api zoneId V1 r s).calls := by
  unfold updateRecord
  simp only []
  split
  · next e he => rw [he]; exact Shape.cloneFailed _ _
  · next hc =>
    rw [hc]
    split
    · next e hg =>
      simp only [getRecord_calls, deleteVersion, List.singleton_append]
      exact Shape.locateFailed _ _ _ _ (getRecord_error hg)
    · next old hg =>
      obtain ⟨hle, hf⟩ := getRecord_ok hg
      simp only [getRecord_calls, deleteVersion, List.singleton_append, hle]
      split
      · next hx => rw [hx]; exact Shape.deleteFailed _ _ _ _ _ hf
      · next hx =>
        have hx' := Bool.eq_true_of_not_eq_false hx
        rw [hx']
        split
        · next ae ha => rw [ha]; exact Shape.addFailed _ _ _ _ _ _ hf
        · next ha =>
          rw [ha]
          split
          · next se hs => rw [hs]; exact Shape.activateFailed _ _ _ _ _ _ hf
          · next hs => rw [hs]; exact Shape.done _ _ _ _ _ hf

/-- The first call of `updateRecord` is the clone of the given version. -/
theorem updateRecord_head {σ : Type} (api : ZoneAPI σ) (zoneId V1 : Int) (r : RecordInfo)
    (s : σ) :
    (updateRecord api zoneId V1 r s).calls.head? =
      some (Event.versionNew zoneId V1 (api.versionNew zoneId V1 s).1.1
        (api.versionNew zoneId V1 s).1.2) := by
  unfold updateRecord
  simp only []
  repeat' split
  all_goals rfl

/-- The returned value does not depend on what `DeleteVersion` does. -/
theorem updateRecord_ret_versionDelete {σ : Type} (api : ZoneAPI σ)
    (dv : Int → Int → σ → Option String × σ) (zoneId V1 : Int) (r : RecordInfo) (s : σ) :
    (updateRecord { api with versionDelete := dv } zoneId V1 r s).ret =
      (updateRecord api zoneId V1 r s).ret := by
  unfold updateRecord
  simp only [getRecord_ret, getRecord_st]
  repeat' split
  all_goals rfl

/-- An iteration whose IP read fails, or reads the registered value, does
nothing. -/
theorem pollIteration_skip {σ : Type} (api : ZoneAPI σ) (zoneId : Int)
    (q : String × Option String) (l : LoopState) (s : σ)
    (hq : q.2 ≠ none ∨ q.1 = l.registeredIp) :
    pollIteration api zoneId q l s = ⟨l, [], s⟩ := by
  unfold pollIteration
  split
  · rfl
  · next hn =>
    rcases hq with hq | hq
    · exact absurd hn hq
    · simp [hq]

/-- Iterations that do nothing can be dropped from the front of the loop. -/
theorem pollLoop_skip {σ : Type} (api : ZoneAPI σ) (zoneId : Int)
    (skipped rest : List (String × Option String)) (l : LoopState) (s : σ)
    (hs : ∀ q ∈ skipped, q.2 ≠ none ∨ q.1 = l.registeredIp) :
    pollLoop api zoneId (skipped ++ rest) l s = pollLoop api zoneId rest l s := by
  induction skipped with
  | nil => rfl
  | cons q t ih =>
    have hq := pollIteration_skip api zoneId q l s (hs q (by simp))
    simp only [List.cons_append, pollLoop, hq, List.nil_append]
    exact ih (fun q' hq' => hs q' (by simp [hq']))

/-- The loop over a single read is one iteration. -/
theorem pollLoop_single {σ : Type} (api : ZoneAPI σ) (zoneId : Int)
    (q : String × Option String) (l : LoopState) (s : σ) :
    pollLoop api zoneId [q] l s = pollIteration api zoneId q l s := by
  simp [pollLoop]

/-- `updateRecord` does not read the `Id` of the record it is given. -/
theorem updateRecord_ignores_id {σ : Type} (api : ZoneAPI σ) (zoneId V1 : Int)
    (r : RecordInfo) (id : String) (s : σ) :
    updateRecord api zoneId V1 { r with Id := id } s = updateRecord api zoneId V1 r s := by
  rfl

theorem FirstNamed.find {name : String} {L : List RecordInfo} {old : RecordInfo}
    (h : FirstNamed name L old) : findRecord name L = some old :=
  findRecord_eq_some.2 h

/-- What `updateRecord` does when the zone API answers a step after the clone
with a failure. -/
theorem updateRecord_of_fails {σ : Type} {api : ZoneAPI σ} {zoneId V1 : Int} {r : RecordInfo}
    {s : σ} {stage : Stage} {sk sf : σ} {ev : Event}
    (hreach : Reached api zoneId V1 r s stage sk) (hfail : Fails api zoneId r stage sk ev sf) :
    updateRecord api zoneId V1 r s =
      ⟨(0, some updateFailed),
        stage.calls zoneId V1 r ++
          [ev, Event.versionDelete zoneId stage.newV (api.versionDelete zoneId stage.newV sf).1],
        (api.versionDelete zoneId stage.newV sf).2⟩ := by
  cases hfail with
  | listing h =>
    cases hreach with
    | clone h1 =>
      simp [updateRecord, getRecord, deleteVersion, h1, h, Stage.calls, Stage.newV]
  | notFound h hno =>
    cases hreach with
    | clone h1 =>
      simp [updateRecord, getRecord, deleteVersion, h1, h, Stage.calls, Stage.newV,
        findRecord_eq_none.2 hno]
  | delete h =>
    cases hreach with
    | locate b2 h2 hf =>
      cases b2 with
      | clone h1 =>
        simp [updateRecord, getRecord, deleteVersion, h1, h2, h, Stage.calls, Stage.newV,
          hf.find]
  | add h =>
    cases hreach with
    | delete b3 h3 =>
      cases b3 with
      | locate b2 h2 hf =>
        cases b2 with
        | clone h1 =>
          simp [updateRecord, getRecord, deleteVersion, h1, h2, h3, h, Stage.calls,
            Stage.newV, hf.find]
  | activate h =>
    cases hreach with
    | add b4 h4 =>
      cases b4 with
      | delete b3 h3 =>
        cases b3 with
        | locate b2 h2 hf =>
          cases b2 with
          | clone h1 =>
            simp [updateRecord, getRecord, deleteVersion, h1, h2, h3, h4, h, Stage.calls,
              Stage.newV, hf.find]

/-- What `updateRecord` does when the zone API answers all five steps with
success. -/
theorem updateRecord_of_active {σ : Type} {api : ZoneAPI σ} {zoneId V1 : Int} {r : RecordInfo}
    {s : σ} {n : Int} {L : List RecordInfo} {old : RecordInfo} {xe : Option String} {s5 : σ}
    (hreach : Reached api zoneId V1 r s (Stage.versionActive n L old xe) s5) :
    updateRecord api zoneId V1 r s =
      ⟨(n, none),
        (Stage.versionActive n L old xe).calls zoneId V1 r ++
          [Event.versionDelete zoneId V1 (api.versionDelete zoneId V1 s5).1],
        (api.versionDelete zoneId V1 s5).2⟩ := by
  cases hreach with
  | activate b5 h5 =>
    cases b5 with
    | add b4 h4 =>
      cases b4 with
      | delete b3 h3 =>
        cases b3 with
        | locate b2 h2 hf =>
          cases b2 with
          | clone h1 =>
            simp [updateRecord, getRecord, deleteVersion, h1, h2, h3, h4, h5, Stage.calls,
              hf.find]

/-- What `updateRecord` does when the zone API answers the clone call with an
error. -/
theorem updateRecord_of_clone_error {σ : Type} {api : ZoneAPI σ} {zoneId V1 : Int}
    {r : RecordInfo} {s : σ} {n : Int} {e : String} {s1 : σ}
    (h : api.versionNew zoneId V1 s = ((n, some e), s1)) :
    updateRecord api zoneId V1 r s =
      ⟨(0, some updateFailed), [Event.versionNew zoneId V1 n (some e)], s1⟩ := by
  simp [updateRecord, h]

/-- The answers of the zone API always make the transaction end in one of three
ways: the clone fails, a later step fails, or all five steps succeed. -/
theorem transaction_ends {σ : Type} (api : ZoneAPI σ) (zoneId V1 : Int) (r : RecordInfo)
    (s : σ) :
    (∃ n e s1, api.versionNew zoneId V1 s = ((n, some e), s1)) ∨
      (∃ stage sk ev sf, Reached api zoneId V1 r s stage sk ∧
        Fails api zoneId r stage sk ev sf) ∨
      (∃ n L old xe s5, Reached api zoneId V1 r s (Stage.versionActive n L old xe) s5) := by
  rcases h1 : api.versionNew zoneId V1 s with ⟨⟨n, ce⟩, s1⟩
  cases ce with
  | some e => exact Or.inl ⟨n, e, s1, rfl⟩
  | none =>
    right
    have r1 : Reached api zoneId V1 r s (Stage.versionCreated n) s1 := Reached.clone h1
    rcases h2 : api.recordList zoneId n s1 with ⟨⟨L, le⟩, s2⟩
    cases le with
    | some e => exact Or.inl ⟨_, _, _, _, r1, Fails.listing h2⟩
    | none =>
      cases hfind : findRecord r.Name L with
      | none => exact Or.inl ⟨_, _, _, _, r1, Fails.notFound h2 (findRecord_eq_none.1 hfind)⟩
      | some old =>
        have r2 : Reached api zoneId V1 r s (Stage.oldRecordFound n L old) s2 :=
          Reached.locate r1 h2 (findRecord_eq_some.1 hfind)
        rcases h3 : api.recordDelete zoneId n old.Id s2 with ⟨⟨ok, xe⟩, s3⟩
        cases ok with
        | false => exact Or.inl ⟨_, _, _, _, r2, Fails.delete h3⟩
        | true =>
          have r3 : Reached api zoneId V1 r s (Stage.recordDeleted n L old xe) s3 :=
            Reached.delete r2 h3
          rcases h4 : api.recordAdd ⟨zoneId, n, r.Name, r.Type_, r.Value, r.Ttl⟩ s3
            with ⟨ae, s4⟩
          cases ae with
          | some e => exact Or.inl ⟨_, _, _, _, r3, Fails.add h4⟩
          | none =>
            have r4 : Reached api zoneId V1 r s (Stage.recordAdded n L old xe) s4 :=
              Reached.add r3 h4
            rcases h5 : api.versionSet zoneId n s4 with ⟨se, s5⟩
            cases se with
            | some e => exact Or.inl ⟨_, _, _, _, r4, Fails.activate h5⟩
            | none => exact Or.inr ⟨_, _, _, _, _, Reached.activate r4 h5⟩

/-- Every reached state starts with a clone call that returned its clone id
with no error. -/
theorem Reached.clone_eq {σ : Type} {api : ZoneAPI σ} {zoneId V1 : Int} {r : RecordInfo}
    {s : σ} {stage : Stage} {sk : σ} (h : Reached api zoneId V1 r s stage sk) :
    (api.versionNew zoneId V1 s).1 = (stage.newV, none) := by
  induction h with
  | clone h1 => rw [h1]; rfl
  | locate _ _ _ ih => exact ih
  | delete _ _ ih => exact ih
  | add _ _ ih => exact ih
  | activate _ _ ih => exact ih

/-- The scripted zone API keeps the clone contract: the clone of `v` is `v + 1`. -/
theorem scripted_cloneContract (k : Script) : CloneContract (scripted k) := by
  intro zoneId versionId s _
  simp [scripted]

/-! ## The claims -/

/-- C10: for every behaviour of the zone API, one run of `updateRecord zoneId V1 r`
is a single pass decided by the answers of the API. If the clone call returns
an error, it is the only call. If the API answers the steps with success up to
some state and the next step with a failure, the calls are those steps, the
failing call, and one `DeleteVersion` of the clone, really sent to the API (its
answer is logged and the remote state is the one it leaves). If all five steps
succeed, the calls are the five steps and one `DeleteVersion(V1)`. No step is
called twice, at most one `DeleteVersion` is issued, and an activation call is
issued only when the API answered clone, lookup, record delete and add with
success. -/
theorem C10_single_pass {σ : Type} (api : ZoneAPI σ) (zoneId V1 : Int) (r : RecordInfo)
    (s : σ) :
    ((∃ n e s1, api.versionNew zoneId V1 s = ((n, some e), s1) ∧
          updateRecord api zoneId V1 r s =
            ⟨(0, some updateFailed), [Event.versionNew zoneId V1 n (some e)], s1⟩) ∨
        (∃ stage sk ev sf, Reached api zoneId V1 r s stage sk ∧
          Fails api zoneId r stage sk ev sf ∧
          updateRecord api zoneId V1 r s =
            ⟨(0, some updateFailed),
              stage.calls zoneId V1 r ++
                [ev, Event.versionDelete zoneId stage.newV
                  (api.versionDelete zoneId stage.newV sf).1],
              (api.versionDelete zoneId stage.newV sf).2⟩) ∨
        (∃ n L old xe s5, Reached api zoneId V1 r s (Stage.versionActive n L old xe) s5 ∧
          updateRecord api zoneId V1 r s =
            ⟨(n, none),
              (Stage.versionActive n L old xe).calls zoneId V1 r ++
                [Event.versionDelete zoneId V1 (api.versionDelete zoneId V1 s5).1],
              (api.versionDelete zoneId V1 s5).2⟩)) ∧
      (∀ st : Step,
        ((updateRecord api zoneId V1 r s).calls.filter
          (fun e => decide (e.step = some st))).length ≤ 1) ∧
      ((updateRecord api zoneId V1 r s).calls.filter Event.isVersionDelete).length ≤ 1 ∧
      ((∃ e ∈ (updateRecord api zoneId V1 r s).calls, e.step = some Step.activate) →
        ∃ n L old xe s4, Reached api zoneId V1 r s (Stage.recordAdded n L old xe) s4) := by
  have hshape := updateRecord_shape api zoneId V1 r s
  refine ⟨?_, ?_, ?_, ?_⟩
  · rcases transaction_ends api zoneId V1 r s with ⟨n, e, s1, h⟩ | ⟨stage, sk, ev, sf, hr, hf⟩ |
      ⟨n, L, old, xe, s5, hr⟩
    · exact Or.inl ⟨n, e, s1, h, updateRecord_of_clone_error h⟩
    · exact Or.inr (Or.inl ⟨stage, sk, ev, sf, hr, hf, updateRecord_of_fails hr hf⟩)
    · exact Or.inr (Or.inr ⟨n, L, old, xe, s5, hr, updateRecord_of_active hr⟩)
  · intro st
    generalize (updateRecord api zoneId V1 r s).ret = ret at hshape
    generalize (updateRecord api zoneId V1 r s).calls = calls at hshape ⊢
    cases hshape <;> cases st <;> simp [Event.step]
  · generalize (updateRecord api zoneId V1 r s).ret = ret at hshape
    generalize (updateRecord api zoneId V1 r s).calls = calls at hshape ⊢
    cases hshape <;> simp [Event.isVersionDelete]
  · rintro ⟨e, he, hstep⟩
    rcases transaction_ends api zoneId V1 r s with ⟨n, e1, s1, h⟩ | ⟨stage, sk, ev, sf, hr, hf⟩ |
      ⟨n, L, old, xe, s5, hr⟩
    · rw [updateRecord_of_clone_error h] at he
      simp at he
      subst he
      simp [Event.step] at hstep
    · rw [updateRecord_of_fails hr hf] at he
      cases hf with
      | activate h => exact ⟨_, _, _, _, _, hr⟩
      | listing h =>
        simp [Stage.calls] at he
        rcases he with rfl | rfl | rfl <;> simp [Event.step] at hstep
      | notFound h hno =>
        simp [Stage.calls] at he
        rcases he with rfl | rfl | rfl <;> simp [Event.step] at hstep
      | delete h =>
        simp [Stage.calls] at he
        rcases he with rfl | rfl | rfl | rfl <;> simp [Event.step] at hstep
      | add h =>
        simp [Stage.calls] at he
        rcases he with rfl | rfl | rfl | rfl | rfl <;> simp [Event.step] at hstep
    · cases hr with
      | activate b5 h5 => exact ⟨_, _, _, _, _, b5⟩

/-- Scenario B on a concrete zone API: the activation call is logged, so the API
answered the four steps before it with success (an instance of C10); the six
calls and the final remote state are spelled out. -/
theorem C10_single_pass_witness :
    (∃ n L old xe s4, Reached (scripted allOk) 1 5 home 0 (Stage.recordAdded n L old xe) s4) ∧
      (updateRecord (scripted allOk) 1 5 home 0).calls =
        [Event.versionNew 1 5 6 none, Event.recordList 1 6 allOk.listing none,
         Event.recordDelete 1 6 "9" true none,
         Event.recordAdd ⟨1, 6, "home", "A", "5.6.7.8", 300⟩ none,
         Event.versionSet 1 6 none, Event.versionDelete 1 5 none] ∧
      (updateRecord (scripted allOk) 1 5 home 0).ret = (6, none) ∧
      (updateRecord (scripted allOk) 1 5 home 0).st = 6 :=
  ⟨(C10_single_pass (scripted allOk) 1 5 home 0).2.2.2 ⟨Event.versionSet 1 6 none, by decide, rfl⟩,
    by decide, by decide, by decide⟩

/-- C1: when the zone API answers the clone call with success and the id `newV`,
answers the steps after it with success up to some state, and answers the next
step (lookup, record delete, add or activate) with a failure, then
`updateRecord` sends `DeleteVersion(zoneId, newV)` to the API as its last call,
after the failing call, logs whatever the API answers to it and ends in the
remote state that call leaves, and returns version 0 with the error `update
failed`. -/
theorem C1_rollback_after_clone {σ : Type} (api : ZoneAPI σ) (zoneId versionId : Int)
    (r : RecordInfo) (s : σ) (newV : Int) (s1 : σ) (stage : Stage) (sk sf : σ) (ev : Event)
    (hclone : api.versionNew zoneId versionId s = ((newV, none), s1))
    (hreach : Reached api zoneId versionId r s stage sk)
    (hfail : Fails api zoneId r stage sk ev sf) :
    (updateRecord api zoneId versionId r s).ret = (0, some updateFailed) ∧
      (updateRecord api zoneId versionId r s).calls =
        stage.calls zoneId versionId r ++
          [ev, Event.versionDelete zoneId newV (api.versionDelete zoneId newV sf).1] ∧
      (∀ e ∈ stage.calls zoneId versionId r ++ [ev], e.isVersionDelete = false) ∧
      (updateRecord api zoneId versionId r s).st = (api.versionDelete zoneId newV sf).2 := by
  have hn : stage.newV = newV := by
    have := hreach.clone_eq
    rw [hclone] at this
    simp at this
    exact this.symm
  rw [updateRecord_of_fails hreach hfail, hn]
  refine ⟨rfl, rfl, ?_, rfl⟩
  cases hfail <;> simp [Stage.calls, Event.isVersionDelete]

/-- Scenario C with a rollback that itself fails: the add call fails, the
clone 6 is deleted by the fifth call, whose error is only logged, and failure
is returned (an instance of C1). -/
theorem C1_rollback_after_clone_witness :
    (updateRecord (scripted { allOk with addErr := some "boom", verDelErr := some "gone" })
        1 5 home 0).ret = (0, some updateFailed) ∧
      (updateRecord (scripted { allOk with addErr := some "boom", verDelErr := some "gone" })
        1 5 home 0).calls =
        [Event.versionNew 1 5 6 none, Event.recordList 1 6 allOk.listing none,
         Event.recordDelete 1 6 "9" true none,
         Event.recordAdd ⟨1, 6, "home", "A", "5.6.7.8", 300⟩ (some "boom"),
         Event.versionDelete 1 6 (some "gone")] ∧
      (∀ e ∈ ([Event.versionNew 1 5 6 none, Event.recordList 1 6 allOk.listing none,
         Event.recordDelete 1 6 "9" true none,
         Event.recordAdd ⟨1, 6, "home", "A", "5.6.7.8", 300⟩ (some "boom")] : List Event),
        e.isVersionDelete = false) ∧
      (updateRecord (scripted { allOk with addErr := some "boom", verDelErr := some "gone" })
        1 5 home 0).st = 5 :=
  C1_rollback_after_clone
    (scripted { allOk with addErr := some "boom", verDelErr := some "gone" }) 1 5 home 0 6 1
    (Stage.recordDeleted 6 allOk.listing ⟨"9", "home", 300, "A", "1.2.3.4"⟩ none) 3 4
    (Event.recordAdd ⟨1, 6, "home", "A", "5.6.7.8", 300⟩ (some "boom"))
    rfl
    (Reached.delete
      (Reached.locate (Reached.clone rfl) rfl
        ⟨[⟨"8", "mail", 300, "A", "9.9.9.9"⟩], [], rfl, rfl, by decide⟩)
      rfl)
    (Fails.add rfl)

/-- C3: `updateRecord` returns the id the clone call returned, with no error,
exactly when the zone API answers all five steps (clone, lookup, record delete,
add, activate) with success; in every other execution it returns version 0 with
the one error `update failed`; and replacing the `DeleteVersion` operation of
the API by any other behaviour leaves the returned value unchanged. -/
theorem C3_binary_outcome {σ : Type} (api : ZoneAPI σ) (zoneId versionId : Int)
    (r : RecordInfo) (s : σ) :
    ((updateRecord api zoneId versionId r s).ret =
          ((api.versionNew zoneId versionId s).1.1, none) ↔
        ∃ n L old xe s5,
          Reached api zoneId versionId r s (Stage.versionActive n L old xe) s5) ∧
      ((¬ ∃ n L old xe s5,
          Reached api zoneId versionId r s (Stage.versionActive n L old xe) s5) →
        (updateRecord api zoneId versionId r s).ret = (0, some updateFailed)) ∧
      (∀ dv : Int → Int → σ → Option String × σ,
        (updateRecord { api with versionDelete := dv } zoneId versionId r s).ret =
          (updateRecord api zoneId versionId r s).ret) := by
  refine ⟨⟨?_, ?_⟩, ?_, fun dv => updateRecord_ret_versionDelete api dv zoneId versionId r s⟩
  · intro hret
    rcases transaction_ends api zoneId versionId r s with ⟨n, e, s1, h⟩ |
      ⟨stage, sk, ev, sf, hr, hf⟩ | hok
    · rw [updateRecord_of_clone_error h] at hret
      simp at hret
    · rw [updateRecord_of_fails hr hf] at hret
      simp at hret
    · exact hok
  · rintro ⟨n, L, old, xe, s5, hr⟩
    have hc := hr.clone_eq
    rw [updateRecord_of_active hr, hc]
    rfl
  · intro hno
    rcases transaction_ends api zoneId versionId r s with ⟨n, e, s1, h⟩ |
      ⟨stage, sk, ev, sf, hr, hf⟩ | hok
    · rw [updateRecord_of_clone_error h]
    · rw [updateRecord_of_fails hr hf]
    · exact absurd hok hno

/-- All five steps succeed and the retirement of the old version fails: the
result is still the new version 6 with no error (an instance of C3); and with a
failing add and a failing rollback the result is version 0 with `update
failed`. -/
theorem C3_binary_outcome_witness :
    (updateRecord (scripted { allOk with verDelErr := some "gone" }) 1 5 home 0).ret =
        (6, none) ∧
      (updateRecord (scripted { allOk with addErr := some "boom", verDelErr := some "gone" })
        1 5 home 0).ret = (0, some updateFailed) :=
  ⟨(C3_binary_outcome (scripted { allOk with verDelErr := some "gone" }) 1 5 home 0).1.2
      ⟨6, allOk.listing, ⟨"9", "home", 300, "A", "1.2.3.4"⟩, none, 5,
        Reached.activate
          (Reached.add
            (Reached.delete
              (Reached.locate (Reached.clone rfl) rfl
                ⟨[⟨"8", "mail", 300, "A", "9.9.9.9"⟩], [], rfl, rfl, by decide⟩)
              rfl)
            rfl)
          rfl⟩,
    by decide⟩

/-- C2: when the zone API keeps the clone contract and answers all five steps of
`updateRecord zoneId oldVersion r` with success, the calls are the five steps
followed by one `DeleteVersion` call, sent to the API and targeting
`oldVersion`; it is the only `DeleteVersion` call; and the result is
`newVersion`, the id the clone call returned, with no error and
`newVersion ≠ oldVersion`. -/
theorem C2_success_retires_old {σ : Type} (api : ZoneAPI σ) (zoneId oldVersion : Int)
    (r : RecordInfo) (s : σ) (newVersion : Int) (L : List RecordInfo) (old : RecordInfo)
    (xe : Option String) (s5 : σ)
    (hcontract : CloneContract api)
    (hok : Reached api zoneId oldVersion r s (Stage.versionActive newVersion L old xe) s5) :
    (updateRecord api zoneId oldVersion r s).calls =
        (Stage.versionActive newVersion L old xe).calls zoneId oldVersion r ++
          [Event.versionDelete zoneId oldVersion (api.versionDelete zoneId oldVersion s5).1] ∧
      (updateRecord api zoneId oldVersion r s).st = (api.versionDelete zoneId oldVersion s5).2 ∧
      (updateRecord api zoneId oldVersion r s).calls.filter Event.isVersionDelete =
        [Event.versionDelete zoneId oldVersion (api.versionDelete zoneId oldVersion s5).1] ∧
      (updateRecord api zoneId oldVersion r s).ret = (newVersion, none) ∧
      (updateRecord api zoneId oldVersion r s).ret.1 ≠ oldVersion := by
  have hc := hok.clone_eq
  have hne : newVersion ≠ oldVersion := by
    have h1 := hcontract zoneId oldVersion s (by rw [hc])
    rw [hc] at h1
    exact h1
  rw [updateRecord_of_active hok]
  exact ⟨rfl, rfl, by simp [Stage.calls, Event.isVersionDelete], rfl, hne⟩

/-- Scenario B: a fully successful run on version 5; the one `DeleteVersion`
call is the sixth call and targets 5, and the new version 6 is returned (an
instance of C2). -/
theorem C2_success_retires_old_witness :
    (updateRecord (scripted allOk) 1 5 home 0).calls =
        [Event.versionNew 1 5 6 none, Event.recordList 1 6 allOk.listing none,
         Event.recordDelete 1 6 "9" true none,
         Event.recordAdd ⟨1, 6, "home", "A", "5.6.7.8", 300⟩ none,
         Event.versionSet 1 6 none, Event.versionDelete 1 5 none] ∧
      (updateRecord (scripted allOk) 1 5 home 0).st = 6 ∧
      (updateRecord (scripted allOk) 1 5 home 0).calls.filter Event.isVersionDelete =
        [Event.versionDelete 1 5 none] ∧
      (updateRecord (scripted allOk) 1 5 home 0).ret = (6, none) ∧
      (updateRecord (scripted allOk) 1 5 home 0).ret.1 ≠ 5 :=
  C2_success_retires_old (scripted allOk) 1 5 home 0 6 allOk.listing
    ⟨"9", "home", 300, "A", "1.2.3.4"⟩ none 5 (scripted_cloneContract allOk)
    (Reached.activate
      (Reached.add
        (Reached.delete
          (Reached.locate (Reached.clone rfl) rfl
            ⟨[⟨"8", "mail", 300, "A", "9.9.9.9"⟩], [], rfl, rfl, by decide⟩)
          rfl)
        rfl)
      rfl)

/-- C9: when the zone API keeps the clone contract, every `DeleteRecord` and
`AddRecord` call of `updateRecord zoneId activeVersion r` is issued against the
id the clone call returned and none against `activeVersion`; at most one
activation call is issued, and it targets the clone; and a `DeleteVersion` call
on `activeVersion` is issued only as the last call of a run in which the API
answered all five steps, the activation included, with success. -/
theorem C9_mutations_on_clone {σ : Type} (api : ZoneAPI σ) (zoneId activeVersion : Int)
    (r : RecordInfo) (s : σ) (hcontract : CloneContract api) :
    (∀ e ∈ (updateRecord api zoneId activeVersion r s).calls, e.isRecordMutation = true →
        (api.versionNew zoneId activeVersion s).1 = (e.version, none) ∧
        e.version ≠ activeVersion) ∧
      ((updateRecord api zoneId activeVersion r s).calls.filter
        (fun e => decide (e.step = some Step.activate))).length ≤ 1 ∧
      (∀ e ∈ (updateRecord api zoneId activeVersion r s).calls, e.step = some Step.activate →
        (api.versionNew zoneId activeVersion s).1 = (e.version, none) ∧
        e.version ≠ activeVersion) ∧
      (∀ zz de, Event.versionDelete zz activeVersion de ∈
          (updateRecord api zoneId activeVersion r s).calls →
        ∃ n L old xe s5,
          Reached api zoneId activeVersion r s (Stage.versionActive n L old xe) s5 ∧
          (updateRecord api zoneId activeVersion r s).calls =
            (Stage.versionActive n L old xe).calls zoneId activeVersion r ++
              [Event.versionDelete zz activeVersion de]) := by
  have hshape := updateRecord_shape api zoneId activeVersion r s
  have hh := updateRecord_head api zoneId activeVersion r s
  have hne := hcontract zoneId activeVersion s
  refine ⟨?_, ?_, ?_, ?_⟩
  · rcases hc : api.versionNew zoneId activeVersion s with ⟨⟨n, ce⟩, s1⟩
    rw [hc] at hh hne
    generalize (updateRecord api zoneId activeVersion r s).ret = ret at hshape
    generalize (updateRecord api zoneId activeVersion r s).calls = calls at hshape hh ⊢
    cases hshape <;> simp at hh <;> obtain ⟨rfl, rfl⟩ := hh <;>
      simp [Event.isRecordMutation, Event.version] <;> simpa using hne
  · generalize (updateRecord api zoneId activeVersion r s).ret = ret at hshape
    generalize (updateRecord api zoneId activeVersion r s).calls = calls at hshape ⊢
    cases hshape <;> simp [Event.step]
  · rcases hc : api.versionNew zoneId activeVersion s with ⟨⟨n, ce⟩, s1⟩
    rw [hc] at hh hne
    generalize (updateRecord api zoneId activeVersion r s).ret = ret at hshape
    generalize (updateRecord api zoneId activeVersion r s).calls = calls at hshape hh ⊢
    cases hshape <;> simp at hh <;> obtain ⟨rfl, rfl⟩ := hh <;>
      simp [Event.step, Event.version] <;> simpa using hne
  · intro zz de hmem
    rcases transaction_ends api zoneId activeVersion r s with ⟨n, e, s1, h⟩ |
      ⟨stage, sk, ev, sf, hr, hf⟩ | ⟨n, L, old, xe, s5, hr⟩
    · rw [updateRecord_of_clone_error h] at hmem
      simp at hmem
    · exfalso
      have hc := hr.clone_eq
      have hn : stage.newV ≠ activeVersion := by
        have h1 := hne (by rw [hc])
        rw [hc] at h1
        exact h1
      rw [updateRecord_of_fails hr hf] at hmem
      cases hf <;> simp [Stage.calls, Stage.newV] at hmem hn <;> exact hn hmem.2.1.symm
    · refine ⟨n, L, old, xe, s5, hr, ?_⟩
      rw [updateRecord_of_active hr] at hmem ⊢
      simp [Stage.calls] at hmem
      obtain ⟨rfl, rfl⟩ := hmem
      rfl

/-- Scenario B: the record delete and add go to the clone 6, none to the active
version 5, and version 5 is deleted as the last call of a run whose five steps
succeeded (an instance of C9). -/
theorem C9_mutations_on_clone_witness :
    (∀ e ∈ (updateRecord (scripted allOk) 1 5 home 0).calls, e.isRecordMutation = true →
        ((scripted allOk).versionNew 1 5 0).1 = (e.version, none) ∧ e.version ≠ 5) ∧
      (updateRecord (scripted allOk) 1 5 home 0).calls.filter Event.isRecordMutation =
        [Event.recordDelete 1 6 "9" true none,
         Event.recordAdd ⟨1, 6, "home", "A", "5.6.7.8", 300⟩ none] :=
  ⟨(C9_mutations_on_clone (scripted allOk) 1 5 home 0 (scripted_cloneContract allOk)).1,
    by decide⟩

/-- C4: `getRecord` issues exactly one call, the listing of the given version,
and leaves the remote state as that call did. If the listing returns an error,
that error is returned. If it returns the list `L` without error, the record
returned is the first element of `L` whose name is `name`, and the error
`record not found` is returned exactly when no element of `L` has that name. -/
theorem C4_getRecord_first_match {σ : Type} (api : ZoneAPI σ) (zoneId versionId : Int)
    (name : String) (s : σ) :
    (getRecord api zoneId versionId name s).calls =
        [Event.recordList zoneId versionId (api.recordList zoneId versionId s).1.1
          (api.recordList zoneId versionId s).1.2] ∧
      (getRecord api zoneId versionId name s).st = (api.recordList zoneId versionId s).2 ∧
      (∀ e, (api.recordList zoneId versionId s).1.2 = some e →
        (getRecord api zoneId versionId name s).ret = Except.error e) ∧
      ((api.recordList zoneId versionId s).1.2 = none →
        (∀ rec, (getRecord api zoneId versionId name s).ret = Except.ok rec ↔
          ∃ pre post, (api.recordList zoneId versionId s).1.1 = pre ++ rec :: post ∧
            rec.Name = name ∧ ∀ x ∈ pre, x.Name ≠ name) ∧
        ((getRecord api zoneId versionId name s).ret = Except.error "record not found" ↔
          ∀ x ∈ (api.recordList zoneId versionId s).1.1, x.Name ≠ name)) := by
  refine ⟨getRecord_calls _ _ _ _ _, getRecord_st _ _ _ _ _, ?_, ?_⟩
  · intro e he
    rw [getRecord_ret, he]
  · intro hn
    rw [getRecord_ret, hn]
    simp only []
    constructor
    · intro rec
      rw [← findRecord_eq_some]
      cases findRecord name (api.recordList zoneId versionId s).1.1 <;> simp
    · rw [← findRecord_eq_none]
      cases findRecord name (api.recordList zoneId versionId s).1.1 <;> simp

/-- A lookup of `home` in a listing where it comes second (an instance of
C4). -/
theorem C4_getRecord_first_match_witness :
    (getRecord (scripted allOk) 1 6 "home" 0).ret =
        Except.ok ⟨"9", "home", 300, "A", "1.2.3.4"⟩ ∧
      ∃ pre post, ((scripted allOk).recordList 1 6 0).1.1 =
          pre ++ (⟨"9", "home", 300, "A", "1.2.3.4"⟩ : RecordInfo) :: post ∧
        (⟨"9", "home", 300, "A", "1.2.3.4"⟩ : RecordInfo).Name = "home" ∧
        ∀ x ∈ pre, x.Name ≠ "home" :=
  ⟨rfl, (((C4_getRecord_first_match (scripted allOk) 1 6 "home" 0).2.2.2 rfl).1 _).1 rfl⟩

/-- C5 as stated fails: when the clone lists two records named `home`, the
transaction does not fail; it deletes the first of them, adds, activates and
returns the new version 6. -/
theorem C5_two_matches_not_rejected :
    (twoHomes.listing.filter (fun x => decide (x.Name = home.Name))).length = 2 ∧
      (updateRecord (scripted twoHomes) 1 5 home 0).calls =
        [Event.versionNew 1 5 6 none, Event.recordList 1 6 twoHomes.listing none,
         Event.recordDelete 1 6 "8" true none,
         Event.recordAdd ⟨1, 6, "home", "A", "5.6.7.8", 300⟩ none,
         Event.versionSet 1 6 none, Event.versionDelete 1 5 none] ∧
      (updateRecord (scripted twoHomes) 1 5 home 0).ret = (6, none) := by
  decide

/-- C5, amended: let the zone API answer the clone call with success and id `V2`
and the listing of `V2` with the list `L`. When `L` holds no record named
`r.Name`, the calls are the clone, the listing and one `DeleteVersion(V2)` sent
to the API (its answer is logged and the remote state is the one it leaves),
and failure is returned. When the listing came without error and `L` holds one
or more records named `r.Name`, the lookup takes the first of them in list
order and the third call is `DeleteRecord` with its id, sent to the API. -/
theorem C5_lookup_by_first_match {σ : Type} (api : ZoneAPI σ) (zoneId versionId : Int)
    (r : RecordInfo) (s : σ) (V2 : Int) (s1 : σ) (L : List RecordInfo) (le : Option String)
    (s2 : σ)
    (hclone : api.versionNew zoneId versionId s = ((V2, none), s1))
    (hlist : api.recordList zoneId V2 s1 = ((L, le), s2)) :
    ((∀ x ∈ L, x.Name ≠ r.Name) →
        updateRecord api zoneId versionId r s =
          ⟨(0, some updateFailed),
            [Event.versionNew zoneId versionId V2 none, Event.recordList zoneId V2 L le,
             Event.versionDelete zoneId V2 (api.versionDelete zoneId V2 s2).1],
            (api.versionDelete zoneId V2 s2).2⟩) ∧
      (le = none → ∀ pre old post, L = pre ++ old :: post → old.Name = r.Name →
        (∀ x ∈ pre, x.Name ≠ r.Name) →
        ∃ rest, (updateRecord api zoneId versionId r s).calls =
          [Event.versionNew zoneId versionId V2 none, Event.recordList zoneId V2 L none,
           Event.recordDelete zoneId V2 old.Id (api.recordDelete zoneId V2 old.Id s2).1.1
             (api.recordDelete zoneId V2 old.Id s2).1.2] ++ rest) := by
  constructor
  · intro hno
    cases le with
    | none =>
      rw [updateRecord_of_fails (Reached.clone hclone) (Fails.notFound hlist hno)]
      rfl
    | some e =>
      rw [updateRecord_of_fails (Reached.clone hclone) (Fails.listing hlist)]
      rfl
  · intro hle pre old post hL hname hpre
    subst hle
    have hfind : findRecord r.Name L = some old :=
      findRecord_eq_some.2 ⟨pre, post, hL, hname, hpre⟩
    simp only [updateRecord, getRecord, deleteVersion, hclone, hlist, hfind]
    repeat' split
    all_goals exact ⟨_, rfl⟩

/-- Two runs (instances of C5 as amended). The clone lists only `mail`: clone,
listing, deletion of the clone 6, failure. The clone lists two records named
`home`, ids 8 and 9: the third call is `DeleteRecord` on 8, the first of
them. -/
theorem C5_lookup_by_first_match_witness :
    updateRecord (scripted onlyMail) 1 5 home 0 =
        ⟨(0, some updateFailed),
          [Event.versionNew 1 5 6 none, Event.recordList 1 6 onlyMail.listing none,
           Event.versionDelete 1 6 none], 3⟩ ∧
      ∃ rest, (updateRecord (scripted twoHomes) 1 5 home 0).calls =
        [Event.versionNew 1 5 6 none, Event.recordList 1 6 twoHomes.listing none,
         Event.recordDelete 1 6 "8" true none] ++ rest :=
  ⟨(C5_lookup_by_first_match (scripted onlyMail) 1 5 home 0 6 1 onlyMail.listing none 2
      rfl rfl).1 (by decide),
    (C5_lookup_by_first_match (scripted twoHomes) 1 5 home 0 6 1 twoHomes.listing none 2
      rfl rfl).2 rfl [] ⟨"8", "home", 300, "A", "1.2.3.4"⟩ [⟨"9", "home", 300, "A", "4.3.2.1"⟩]
      rfl rfl (by simp)⟩

/-- C6: in an iteration that reads the public IP without error and finds it
equal to the registered value, no call of the zone API is issued (so no
mutating one), and the loop state and the remote state are unchanged. -/
theorem C6_no_change_no_call {σ : Type} (api : ZoneAPI σ) (zoneId : Int) (ip : String)
    (l : LoopState) (s : σ) (heq : ip = l.registeredIp) :
    (pollIteration api zoneId (ip, none) l s).calls = [] ∧
      (∀ e ∈ (pollIteration api zoneId (ip, none) l s).calls, e.isMutating = false) ∧
      (pollIteration api zoneId (ip, none) l s).ret = l ∧
      (pollIteration api zoneId (ip, none) l s).st = s := by
  subst heq
  simp [pollIteration]

/-- Scenario A: registered and observed address are both `1.2.3.4` (an instance
of C6). -/
theorem C6_no_change_no_call_witness :
    (pollIteration (scripted allOk) 1 ("1.2.3.4", none)
        ⟨5, "1.2.3.4", ⟨"3", "home", 300, "A", "1.2.3.4"⟩⟩ 0).calls = [] ∧
      (∀ e ∈ (pollIteration (scripted allOk) 1 ("1.2.3.4", none)
        ⟨5, "1.2.3.4", ⟨"3", "home", 300, "A", "1.2.3.4"⟩⟩ 0).calls, e.isMutating = false) ∧
      (pollIteration (scripted allOk) 1 ("1.2.3.4", none)
        ⟨5, "1.2.3.4", ⟨"3", "home", 300, "A", "1.2.3.4"⟩⟩ 0).ret =
          ⟨5, "1.2.3.4", ⟨"3", "home", 300, "A", "1.2.3.4"⟩⟩ ∧
      (pollIteration (scripted allOk) 1 ("1.2.3.4", none)
        ⟨5, "1.2.3.4", ⟨"3", "home", 300, "A", "1.2.3.4"⟩⟩ 0).st = 0 :=
  C6_no_change_no_call (scripted allOk) 1 "1.2.3.4"
    ⟨5, "1.2.3.4", ⟨"3", "home", 300, "A", "1.2.3.4"⟩⟩ 0 rfl

/-- C7: in an iteration whose observed IP `ip` differs from the registered
value, the calls are those of `updateRecord` on the active version with the
record's value set to `ip`. If `updateRecord` returns `newVersion` without
error, the loop state becomes `(newVersion, ip)`. If it returns an error, the
active version and the registered value are unchanged, and after any number of
iterations that read no IP or read the registered value, the next iteration
that reads a different IP `ip2` runs `updateRecord` on the same active
version. -/
theorem C7_loop_state {σ : Type} (api : ZoneAPI σ) (zoneId : Int) (ip : String)
    (l : LoopState) (s : σ) (hne : ip ≠ l.registeredIp) :
    (pollIteration api zoneId (ip, none) l s).calls =
        (updateRecord api zoneId l.activeVersion { l.recordInfo with Value := ip } s).calls ∧
      (pollIteration api zoneId (ip, none) l s).st =
        (updateRecord api zoneId l.activeVersion { l.recordInfo with Value := ip } s).st ∧
      (∀ newVersion,
        (updateRecord api zoneId l.activeVersion { l.recordInfo with Value := ip } s).ret =
          (newVersion, none) →
        (pollIteration api zoneId (ip, none) l s).ret.activeVersion = newVersion ∧
        (pollIteration api zoneId (ip, none) l s).ret.registeredIp = ip) ∧
      ((updateRecord api zoneId l.activeVersion { l.recordInfo with Value := ip } s).ret.2 ≠ none →
        (pollIteration api zoneId (ip, none) l s).ret.activeVersion = l.activeVersion ∧
        (pollIteration api zoneId (ip, none) l s).ret.registeredIp = l.registeredIp ∧
        ∀ (skipped : List (String × Option String)) (ip2 : String),
          (∀ q ∈ skipped, q.2 ≠ none ∨ q.1 = l.registeredIp) → ip2 ≠ l.registeredIp →
          (pollLoop api zoneId (skipped ++ [(ip2, none)])
              (pollIteration api zoneId (ip, none) l s).ret
              (pollIteration api zoneId (ip, none) l s).st).calls =
            (updateRecord api zoneId l.activeVersion { l.recordInfo with Value := ip2 }
              (pollIteration api zoneId (ip, none) l s).st).calls) := by
  have hcalls : (pollIteration api zoneId (ip, none) l s).calls =
      (updateRecord api zoneId l.activeVersion { l.recordInfo with Value := ip } s).calls := by
    simp only [pollIteration, hne, ne_eq, not_false_eq_true, if_true]
    split <;> rfl
  have hst : (pollIteration api zoneId (ip, none) l s).st =
      (updateRecord api zoneId l.activeVersion { l.recordInfo with Value := ip } s).st := by
    simp only [pollIteration, hne, ne_eq, not_false_eq_true, if_true]
    split <;> rfl
  refine ⟨hcalls, hst, ?_, ?_⟩
  · intro newVersion hret
    simp [pollIteration, hne, hret]
  · intro herr
    have hret : (pollIteration api zoneId (ip, none) l s).ret =
        { l with recordInfo := { l.recordInfo with Value := ip } } := by
      simp only [pollIteration, hne, ne_eq, not_false_eq_true, if_true]
      split
      · next hn => exact absurd hn herr
      · rfl
    refine ⟨by rw [hret], by rw [hret], ?_⟩
    intro skipped ip2 hs hne2
    have hskip := pollLoop_skip api zoneId skipped [(ip2, none)]
      { l with recordInfo := { l.recordInfo with Value := ip } }
      (pollIteration api zoneId (ip, none) l s).st hs
    rw [hret, hskip, pollLoop_single]
    simp only [pollIteration, hne2, ne_eq, not_false_eq_true, if_true]
    split <;> rfl

/-- Scenario C followed by a retry: the add call fails on the first change, the
state stays `(5, 1.2.3.4)`, and the next differing read clones version 5 again
(an instance of C7). -/
theorem C7_loop_state_witness :
    (pollIteration (scripted { allOk with addErr := some "boom" }) 1 ("5.6.7.8", none)
        ⟨5, "1.2.3.4", ⟨"3", "home", 300, "A", "1.2.3.4"⟩⟩ 0).ret.activeVersion = 5 ∧
      (pollIteration (scripted { allOk with addErr := some "boom" }) 1 ("5.6.7.8", none)
        ⟨5, "1.2.3.4", ⟨"3", "home", 300, "A", "1.2.3.4"⟩⟩ 0).ret.registeredIp = "1.2.3.4" ∧
      ∀ (skipped : List (String × Option String)) (ip2 : String),
        (∀ q ∈ skipped, q.2 ≠ none ∨ q.1 = "1.2.3.4") → ip2 ≠ "1.2.3.4" →
        (pollLoop (scripted { allOk with addErr := some "boom" }) 1 (skipped ++ [(ip2, none)])
            (pollIteration (scripted { allOk with addErr := some "boom" }) 1 ("5.6.7.8", none)
              ⟨5, "1.2.3.4", ⟨"3", "home", 300, "A", "1.2.3.4"⟩⟩ 0).ret
            (pollIteration (scripted { allOk with addErr := some "boom" }) 1 ("5.6.7.8", none)
              ⟨5, "1.2.3.4", ⟨"3", "home", 300, "A", "1.2.3.4"⟩⟩ 0).st).calls =
          (updateRecord (scripted { allOk with addErr := some "boom" }) 1 5
            ⟨"3", "home", 300, "A", ip2⟩
            (pollIteration (scripted { allOk with addErr := some "boom" }) 1 ("5.6.7.8", none)
              ⟨5, "1.2.3.4", ⟨"3", "home", 300, "A", "1.2.3.4"⟩⟩ 0).st).calls :=
  (C7_loop_state (scripted { allOk with addErr := some "boom" }) 1 "5.6.7.8"
    ⟨5, "1.2.3.4", ⟨"3", "home", 300, "A", "1.2.3.4"⟩⟩ 0 (by decide)).2.2.2 (by decide)

/-- C8: every `DeleteRecord` call of `updateRecord zoneId oldVersion r` is issued
against the clone `V2` with the id of the first record named `r.Name` in the
listing returned for `V2` (when the ids of that listing are pairwise distinct,
no record of it with another name has that id); every `AddRecord` call carries
zone, `V2`, `r.Name`, `r.Type`, `r.Value`, `r.Ttl`; each of the two is issued at
most once; and the run does not depend on `r.Id`. -/
theorem C8_name_based_matching {σ : Type} (api : ZoneAPI σ) (zoneId oldVersion : Int)
    (r : RecordInfo) (s : σ) :
    (∀ zz vv id ok xe,
        Event.recordDelete zz vv id ok xe ∈ (updateRecord api zoneId oldVersion r s).calls →
        ∃ L old,
          Event.versionNew zoneId oldVersion vv none ∈
            (updateRecord api zoneId oldVersion r s).calls ∧
          Event.recordList zoneId vv L none ∈ (updateRecord api zoneId oldVersion r s).calls ∧
          zz = zoneId ∧ findRecord r.Name L = some old ∧ old ∈ L ∧ old.Name = r.Name ∧
          id = old.Id ∧
          ((L.map RecordInfo.Id).Nodup → ∀ y ∈ L, y.Id = id → y.Name = r.Name)) ∧
      (∀ a ae, Event.recordAdd a ae ∈ (updateRecord api zoneId oldVersion r s).calls →
        ∃ V2, Event.versionNew zoneId oldVersion V2 none ∈
            (updateRecord api zoneId oldVersion r s).calls ∧
          a = ⟨zoneId, V2, r.Name, r.Type_, r.Value, r.Ttl⟩) ∧
      ((updateRecord api zoneId oldVersion r s).calls.filter
        (fun e => decide (e.step = some Step.delete))).length ≤ 1 ∧
      ((updateRecord api zoneId oldVersion r s).calls.filter
        (fun e => decide (e.step = some Step.add))).length ≤ 1 ∧
      (∀ id, updateRecord api zoneId oldVersion { r with Id := id } s =
        updateRecord api zoneId oldVersion r s) := by
  have key : ∀ (L : List RecordInfo) (old : RecordInfo), findRecord r.Name L = some old →
      old ∈ L ∧ old.Name = r.Name ∧
        ((L.map RecordInfo.Id).Nodup → ∀ y ∈ L, y.Id = old.Id → y.Name = r.Name) := by
    intro L old hf
    obtain ⟨pre, post, hL, hn, -⟩ := findRecord_eq_some.1 hf
    have hmem : old ∈ L := by rw [hL]; simp
    refine ⟨hmem, hn, ?_⟩
    intro hnd y hy hid
    have := List.inj_on_of_nodup_map hnd hy hmem hid
    rw [this]; exact hn
  have h := updateRecord_shape api zoneId oldVersion r s
  refine ⟨?_, ?_, ?_, ?_, fun id => updateRecord_ignores_id api zoneId oldVersion r id s⟩
  · generalize (updateRecord api zoneId oldVersion r s).ret = ret at h ⊢
    generalize (updateRecord api zoneId oldVersion r s).calls = calls at h ⊢
    intro zz vv id ok xe hmem
    cases h with
    | cloneFailed n e => simp at hmem
    | locateFailed V2 L le de hf => simp at hmem
    | deleteFailed V2 L old xe2 de hf =>
      simp at hmem
      obtain ⟨rfl, rfl, rfl, -, -⟩ := hmem
      obtain ⟨k1, k2, k3⟩ := key L old hf
      exact ⟨L, old, by simp, by simp, rfl, hf, k1, k2, rfl, k3⟩
    | addFailed V2 L old xe2 de ae hf =>
      simp at hmem
      obtain ⟨rfl, rfl, rfl, -, -⟩ := hmem
      obtain ⟨k1, k2, k3⟩ := key L old hf
      exact ⟨L, old, by simp, by simp, rfl, hf, k1, k2, rfl, k3⟩
    | activateFailed V2 L old xe2 de se hf =>
      simp at hmem
      obtain ⟨rfl, rfl, rfl, -, -⟩ := hmem
      obtain ⟨k1, k2, k3⟩ := key L old hf
      exact ⟨L, old, by simp, by simp, rfl, hf, k1, k2, rfl, k3⟩
    | done V2 L old xe2 de hf =>
      simp at hmem
      obtain ⟨rfl, rfl, rfl, -, -⟩ := hmem
      obtain ⟨k1, k2, k3⟩ := key L old hf
      exact ⟨L, old, by simp, by simp, rfl, hf, k1, k2, rfl, k3⟩
  · generalize (updateRecord api zoneId oldVersion r s).ret = ret at h ⊢
    generalize (updateRecord api zoneId oldVersion r s).calls = calls at h ⊢
    intro a ae hmem
    cases h <;> simp at hmem
    all_goals
      obtain ⟨rfl, -⟩ := hmem
      exact ⟨_, by simp, rfl⟩
  · generalize (updateRecord api zoneId oldVersion r s).ret = ret at h ⊢
    generalize (updateRecord api zoneId oldVersion r s).calls = calls at h ⊢
    cases h <;> simp [Event.step]
  · generalize (updateRecord api zoneId oldVersion r s).ret = ret at h ⊢
    generalize (updateRecord api zoneId oldVersion r s).calls = calls at h ⊢
    cases h <;> simp [Event.step]

/-- The clone lists `mail` (id 11) and `www` (id 12); an update for `www`, whose
id in the old version was 1, deletes record 12 and adds `www`: the only record
calls of the run (an instance of C8). -/
theorem C8_name_based_matching_witness :
    (∃ L old,
        Event.versionNew 1 5 6 none ∈ (updateRecord (scripted wwwMail) 1 5 www 0).calls ∧
        Event.recordList 1 6 L none ∈ (updateRecord (scripted wwwMail) 1 5 www 0).calls ∧
        (1 : Int) = 1 ∧ findRecord www.Name L = some old ∧ old ∈ L ∧ old.Name = www.Name ∧
        "12" = old.Id ∧
        ((L.map RecordInfo.Id).Nodup → ∀ y ∈ L, y.Id = "12" → y.Name = www.Name)) ∧
      (updateRecord (scripted wwwMail) 1 5 www 0).calls.filter Event.isRecordMutation =
        [Event.recordDelete 1 6 "12" true none,
         Event.recordAdd ⟨1, 6, "www", "A", "5.6.7.8", 300⟩ none] :=
  ⟨(C8_name_based_matching (scripted wwwMail) 1 5 www 0).1 1 6 "12" true none (by decide),
    by decide⟩

end Gandyn
